import Mathlib

/-!
Verification of the browsepy glob-to-regex translation engine
(`browsepy.transform` and `browsepy.transform.glob`) against its design
specification.  The translator converts shell-style glob expressions into
regular-expression source strings: wildcards, brace alternation, bracket
sets with POSIX classes, escapes, and separator-aware anchoring.

The translator module itself is not part of the available sources (only
its test suite is), so every definition below is modelled from the
specification document, with the repository's test expectations pinning
down the concrete input/output pairs.
-/

namespace Browsepy

/-- Modelled from the spec: the set of regular-expression metacharacters
that must be escaped when emitted as literal characters
(spec section 4.2, rows for escapes and literal characters). -/
def reMetachars : List Char :=
  ['.', '^', '$', '*', '+', '?', '(', ')', '[', ']',
   '\x7b', '\x7d', '|', '\\']

/-- Modelled from the spec: emit one pattern character as a literal regex
fragment, escaped when it is a metacharacter; the NUL character is emitted
as a Unicode escape sequence for the null code point rather than a raw
byte (spec section 4.2, escape-handling row). -/
def escapeCharL (c : Char) : List Char :=
  if c = '\x00' then ['\\', 'u', '0', '0', '0', '0']
  else if reMetachars.contains c then ['\\', c]
  else [c]

/-- Modelled from the spec: the read-only POSIX character-class table
(spec section 4.3), mapping recognized class names to regex
character-class fragments.  The spec leaves the exact fragment text open
(section 9, open question); only the set of recognized names is relevant
to the verified claims, so the fragments here are illustrative
ASCII-range stand-ins. -/
def posixClasses : List (String × String) :=
  [("alnum", "0-9A-Za-z"),
   ("alpha", "A-Za-z"),
   ("blank", " \\t"),
   ("cntrl", "\\x00-\\x1f\\x7f"),
   ("digit", "0-9"),
   ("graph", "\\x21-\\x7e"),
   ("lower", "a-z"),
   ("print", "\\x20-\\x7e"),
   ("punct", "!-/:-@"),
   ("space", "\\s"),
   ("upper", "A-Z"),
   ("xdigit", "0-9A-Fa-f")]

/-- Modelled from the spec: the diagnostic warning emitted when a bracket
sub-construct cannot be expressed (spec section 4.4); it carries the
offending sub-pattern, rebuilt from its kind character and body. -/
def warnMsg (k : Char) (acc : List Char) : String :=
  "unsupported expression: " ++ String.mk ('[' :: k :: (acc ++ [k, ']']))

/-- Modelled from the spec: the segment-boundary group appended to every
translated pattern (spec section 4.2, anchoring and boundary policy). -/
def boundaryGroup (sep : Char) : List Char :=
  '(' :: (escapeCharL sep ++ ['|', '$', ')'])

/-- Modelled from the spec: the scanner's active state while walking a
glob pattern (spec sections 3 and 9): the root state carrying the brace
nesting depth, the bracket-expression state (negation-position and
literal-closer-position flags, buffered member fragments, degraded flag),
and the sub-state scanning a POSIX-style bracket sub-construct
("[:name:]", "[.sym.]", "[=eq=]") with its kind character, a flag for a
pending kind character, and the accumulated body. -/
inductive ScanMode where
  | root (depth : Nat)
  | bracket (depth : Nat) (neg ok1 : Bool) (buf : List Char) (degraded : Bool)
  | posix (kind : Char) (depth : Nat) (buf : List Char) (degraded : Bool)
      (seen : Bool) (acc : List Char)

/-- Modelled from the spec: the scanner loop of the glob translator
(spec sections 4.1 and 4.2).  It walks the pattern character list in the
current state and produces the translated regex body together with the
list of diagnostic warnings, or the structural error for an unterminated
bracket or brace construct (spec section 4.1, step 3; section 7,
category 1).  Token handling follows the table of section 4.2; the
separator token recognized in the pattern is the `/` character, emitted
as the regex-escaped separator argument; a bracket expression containing
an unsupported sub-construct degrades as a whole to the single-character
wildcard, with one warning per offending sub-construct (sections 4.4 and
8). -/
def scanL (sep : Char) (m : ScanMode) (cs : List Char) :
    Except String (List Char × List String) :=
  match m, cs with
  | .root d, [] =>
      if d = 0 then .ok ([], []) else .error "unterminated construct"
  | .root d, '\\' :: c :: rest =>
      (scanL sep (.root d) rest).map fun bw => (escapeCharL c ++ bw.1, bw.2)
  | .root d, ['\\'] =>
      (scanL sep (.root d) []).map fun bw => (escapeCharL '\\' ++ bw.1, bw.2)
  | .root d, '*' :: '*' :: rest =>
      (scanL sep (.root d) rest).map fun bw => ('.' :: '*' :: bw.1, bw.2)
  | .root d, '*' :: rest =>
      (scanL sep (.root d) rest).map fun bw =>
        ('[' :: '^' :: (escapeCharL sep ++ (']' :: '*' :: bw.1)), bw.2)
  | .root d, '?' :: rest =>
      (scanL sep (.root d) rest).map fun bw =>
        ('[' :: '^' :: (escapeCharL sep ++ (']' :: bw.1)), bw.2)
  | .root d, '\x7b' :: rest =>
      (scanL sep (.root (d + 1)) rest).map fun bw => ('(' :: bw.1, bw.2)
  | .root d, '\x7d' :: rest =>
      if d = 0 then
        (scanL sep (.root 0) rest).map fun bw =>
          (escapeCharL '\x7d' ++ bw.1, bw.2)
      else
        (scanL sep (.root (d - 1)) rest).map fun bw => (')' :: bw.1, bw.2)
  | .root d, ',' :: rest =>
      if d = 0 then
        (scanL sep (.root 0) rest).map fun bw => (',' :: bw.1, bw.2)
      else
        (scanL sep (.root d) rest).map fun bw => ('|' :: bw.1, bw.2)
  | .root d, '[' :: rest =>
      scanL sep (.bracket d true true [] false) rest
  | .root d, '/' :: rest =>
      (scanL sep (.root d) rest).map fun bw => (escapeCharL sep ++ bw.1, bw.2)
  | .root d, c :: rest =>
      (scanL sep (.root d) rest).map fun bw => (escapeCharL c ++ bw.1, bw.2)
  | .bracket _ _ _ _ _, [] => .error "unterminated construct"
  | .bracket d neg _ buf dg, '!' :: rest =>
      if neg then scanL sep (.bracket d false true (buf ++ ['^']) dg) rest
      else scanL sep (.bracket d false false (buf ++ ['!']) dg) rest
  | .bracket d _ ok1 buf dg, ']' :: rest =>
      if ok1 then
        scanL sep (.bracket d false false (buf ++ ['\\', ']']) dg) rest
      else
        (scanL sep (.root d) rest).map fun bw =>
          ((if dg then ['.'] else '[' :: (buf ++ [']'])) ++ bw.1, bw.2)
  | .bracket d _ _ buf dg, '[' :: ':' :: rest2 =>
      scanL sep (.posix ':' d buf dg false []) rest2
  | .bracket d _ _ buf dg, '[' :: '.' :: rest2 =>
      scanL sep (.posix '.' d buf dg false []) rest2
  | .bracket d _ _ buf dg, '[' :: '=' :: rest2 =>
      scanL sep (.posix '=' d buf dg false []) rest2
  | .bracket d _ _ buf dg, '[' :: rest =>
      scanL sep (.bracket d false false (buf ++ ['\\', '[']) dg) rest
  | .bracket d _ _ buf dg, '/' :: rest =>
      scanL sep (.bracket d false false (buf ++ escapeCharL sep) dg) rest
  | .bracket d _ _ buf dg, c :: rest =>
      scanL sep (.bracket d false false (buf ++ escapeCharL c) dg) rest
  | .posix _ _ _ _ _ _, [] => .error "unterminated construct"
  | .posix k d buf dg seen acc, c :: rest =>
      if seen then
        if c = ']' then
          if k = ':' then
            match posixClasses.lookup (String.mk acc) with
            | some frag =>
                scanL sep (.bracket d false false (buf ++ frag.data) dg) rest
            | none =>
                (scanL sep (.bracket d false false buf true) rest).map
                  fun bw => (bw.1, warnMsg k acc :: bw.2)
          else
            (scanL sep (.bracket d false false buf true) rest).map
              fun bw => (bw.1, warnMsg k acc :: bw.2)
        else if c = k then
          scanL sep (.posix k d buf dg true (acc ++ [k])) rest
        else
          scanL sep (.posix k d buf dg false (acc ++ [k, c])) rest
      else
        if c = k then scanL sep (.posix k d buf dg true acc) rest
        else scanL sep (.posix k d buf dg false (acc ++ [c])) rest

/-- Modelled from the spec: the public translation entry point
(spec sections 4.2 and 6).  Runs the scanner from the root state over the
pattern and applies the anchoring and boundary policy: a `^` start anchor
when the pattern begins with the separator token, otherwise an escaped
separator prefix, and in all cases the segment-boundary suffix group.
The result pairs the regex source string with the diagnostic warnings;
an unterminated bracket or brace construct is the structural error. -/
def translate (pattern : String) (sep : Char) :
    Except String (String × List String) :=
  (scanL sep (.root 0) pattern.data).map fun bw =>
    (String.mk
      ((if pattern.data.head? = some '/' then ['^'] else escapeCharL sep)
        ++ bw.1 ++ boundaryGroup sep), bw.2)

/-- Modelled from the spec: one state of the generic scanner — an ordered
token table plus an optional default handler (spec section 3, data
model).  Handlers are represented by the regex fragments they emit. -/
structure ScannerState where
  table : List (String × String)
  dflt : Option String

/-- Modelled from the spec: the generic state-machine core with its stack
of active states, empty when freshly constructed (spec sections 2
and 3). -/
structure StateMachine where
  stack : List ScannerState := []

/-- Modelled from the spec: the nearest-state lookup — search the active
state stack from innermost to outermost for the first state exposing a
default handler, failing with a "not found" condition if the stack is
empty or no state has one (spec sections 4.1 and 6). -/
def StateMachine.nearest (m : StateMachine) : Except String ScannerState :=
  match m.stack.find? (fun s => s.dflt.isSome) with
  | some s => .ok s
  | none => .error "not found"

/-- Helper: the scanner either succeeds or fails with precisely the
structural "unterminated construct" error — no other failure is
reachable from any input in any state. -/
theorem scanL_ok_or_unterminated (sep : Char) (m : ScanMode) (cs : List Char) :
    (∃ r, scanL sep m cs = .ok r) ∨
      scanL sep m cs = .error "unterminated construct" := by
  induction m, cs using scanL.induct sep
  all_goals rw [scanL]
  all_goals try assumption
  all_goals try (split <;> try (exfalso; simp_all; done))
  all_goals try (exact .inr rfl)
  all_goals try (exact .inl ⟨_, rfl⟩)
  all_goals try
    (obtain ⟨r, hr⟩ | hr := ‹_ ∨ _›
     · rw [hr]; exact .inl ⟨_, rfl⟩
     · rw [hr]; exact .inr rfl)
  all_goals try (simp only [reduceIte])
  all_goals try (split <;> try (exfalso; simp_all; done))
  all_goals try assumption
  all_goals try
    (obtain ⟨r, hr⟩ | hr := ‹_ ∨ _›
     · rw [hr]; exact .inl ⟨_, rfl⟩
     · rw [hr]; exact .inr rfl)
  all_goals try simp_all

/-- Claim C9: invoking the generic scanner's nearest-state lookup on a
freshly constructed state machine with no active states fails with the
"not found" lookup error rather than silently returning a default
handler. -/
theorem stateMachine_nearest_empty_fails :
    (StateMachine.mk []).nearest = .error "not found" := rfl

/-- Claim C3 (counterexample): translate is not total — a pattern with an
unterminated bracket expression, or with an unterminated brace group,
fails with the structural "unterminated construct" error instead of
returning a regex, contradicting the claim that no input ever fails. -/
theorem translate_unterminated_not_total :
    translate "[a" '/' = .error "unterminated construct" ∧
    translate "/a\x7b" '/' = .error "unterminated construct" :=
  ⟨rfl, rfl⟩

/-- Claim C3 (amended): for every pattern and separator, translate either
returns a regex result or fails with exactly the structural
"unterminated construct" error for an unterminated bracket expression or
brace group; no other failure is possible, and malformed POSIX bracket
sub-constructs degrade gracefully rather than failing. -/
theorem translate_ok_or_unterminated (p : String) (sep : Char) :
    (∃ r, translate p sep = .ok r) ∨
      translate p sep = .error "unterminated construct" := by
  rcases scanL_ok_or_unterminated sep (.root 0) p.data with ⟨r, hr⟩ | hr
  · exact .inl ⟨_, by rw [translate, hr]; rfl⟩
  · exact .inr (by rw [translate, hr]; rfl)

/-- Claim C1 (counterexample): with separator backslash, the pattern
"/a" does not begin with the separator, yet the returned regex is
anchored with a leading caret and does not begin with the escaped
separator — so the anchor is not driven by the separator argument as the
claim states. -/
theorem translate_anchor_counterexample :
    translate "/a" '\\' = .ok ("^\\\\a(\\\\|$)", []) ∧
    "/a".data.head? ≠ some '\\' ∧
    (escapeCharL '\\').isPrefixOf ("^\\\\a(\\\\|$)" : String).data = false ∧
    ("^\\\\a(\\\\|$)" : String).data.head? = some '^' :=
  ⟨rfl, by decide, by decide, rfl⟩

/-- Claim C1 (amended): for every pattern and separator, whenever
translate returns a regex, the regex starts with a caret followed by the
escaped separator when the pattern begins with the separator token
(the character '/'), otherwise it starts with the escaped separator as
an unanchored prefix; and in both cases the regex ends with the
segment-boundary group; in particular translate of "/a" with separator
'/' is "^/a(/|$)" and translate of "a" is "/a(/|$)". -/
theorem translate_anchoring_policy (p : String) (sep : Char) (r : String)
    (w : List String) (h : translate p sep = .ok (r, w)) :
    ((if p.data.head? = some '/'
      then ∃ t, r.data = ('^' :: escapeCharL sep) ++ t
      else ∃ t, r.data = escapeCharL sep ++ t) ∧
    (∃ s, r.data = s ++ boundaryGroup sep)) ∧
    translate "/a" '/' = .ok ("^/a(/|$)", []) ∧
    translate "a" '/' = .ok ("/a(/|$)", []) := by
  refine ⟨?_, rfl, rfl⟩
  rw [translate] at h
  cases hsc : scanL sep (.root 0) p.data with
  | error e => rw [hsc] at h; exact absurd h (by simp [Except.map])
  | ok bw =>
    rw [hsc] at h
    simp only [Except.map, Except.ok.injEq, Prod.mk.injEq] at h
    obtain ⟨hr, hw⟩ := h
    constructor
    · split
      · rename_i hhead
        obtain ⟨c, cs, hp⟩ : ∃ c cs, p.data = c :: cs := by
          cases hpd : p.data with
          | nil => rw [hpd] at hhead; simp at hhead
          | cons c cs => exact ⟨c, cs, rfl⟩
        have hc : c = '/' := by rw [hp] at hhead; simpa using hhead
        subst hc
        rw [hp] at hsc
        have hslash : scanL sep (.root 0) ('/' :: cs)
            = (scanL sep (.root 0) cs).map
                (fun bw => (escapeCharL sep ++ bw.1, bw.2)) := rfl
        rw [hslash] at hsc
        cases hsc2 : scanL sep (.root 0) cs with
        | error e => rw [hsc2] at hsc; exact absurd hsc (by simp [Except.map])
        | ok bw2 =>
          rw [hsc2] at hsc
          simp only [Except.map, Except.ok.injEq] at hsc
          refine ⟨bw2.1 ++ boundaryGroup sep, ?_⟩
          rw [← hr, ← hsc]
          simp [hhead, List.append_assoc]
      · rename_i hhead
        refine ⟨bw.1 ++ boundaryGroup sep, ?_⟩
        rw [← hr]
        simp [hhead, List.append_assoc]
    · refine ⟨(if p.data.head? = some '/' then ['^'] else escapeCharL sep)
        ++ bw.1, ?_⟩
      rw [← hr]

/-- Claim C1 (witness): the anchoring policy instantiated at pattern
"/a" and separator '/'. -/
theorem translate_anchoring_policy_witness :
    ((if ("/a" : String).data.head? = some '/'
       then ∃ t, ("^/a(/|$)" : String).data = ('^' :: escapeCharL '/') ++ t
       else ∃ t, ("^/a(/|$)" : String).data = escapeCharL '/' ++ t) ∧
     (∃ s, ("^/a(/|$)" : String).data = s ++ boundaryGroup '/')) ∧
    translate "/a" '/' = .ok ("^/a(/|$)", []) ∧
    translate "a" '/' = .ok ("/a(/|$)", []) :=
  translate_anchoring_policy "/a" '/' "^/a(/|$)" [] rfl

/-- Claim C5: the token `**` is translated to the fragment `.*`, a
single `*` to `[^SEP]*`, and `?` to `[^SEP]`, with SEP the regex-escaped
separator; concretely translate of "/a*" is "^/a[^/]*(/|$)", of "/a**"
is "^/a.*(/|$)", and of "a?" is "/a[^/](/|$)". -/
theorem translate_wildcards :
    (∀ (sep : Char) (d : Nat) (cs : List Char),
      scanL sep (.root d) ('*' :: '*' :: cs)
        = (scanL sep (.root d) cs).map fun bw => ('.' :: '*' :: bw.1, bw.2)) ∧
    (∀ (sep : Char) (d : Nat),
      scanL sep (.root d) ['*']
        = (scanL sep (.root d) []).map fun bw =>
            ('[' :: '^' :: (escapeCharL sep ++ (']' :: '*' :: bw.1)), bw.2)) ∧
    (∀ (sep : Char) (d : Nat) (c : Char) (cs : List Char), c ≠ '*' →
      scanL sep (.root d) ('*' :: c :: cs)
        = (scanL sep (.root d) (c :: cs)).map fun bw =>
            ('[' :: '^' :: (escapeCharL sep ++ (']' :: '*' :: bw.1)), bw.2)) ∧
    (∀ (sep : Char) (d : Nat) (cs : List Char),
      scanL sep (.root d) ('?' :: cs)
        = (scanL sep (.root d) cs).map fun bw =>
            ('[' :: '^' :: (escapeCharL sep ++ (']' :: bw.1)), bw.2)) ∧
    translate "/a*" '/' = .ok ("^/a[^/]*(/|$)", []) ∧
    translate "/a**" '/' = .ok ("^/a.*(/|$)", []) ∧
    translate "a?" '/' = .ok ("/a[^/](/|$)", []) := by
  refine ⟨fun _ _ _ => rfl, fun _ _ => rfl, ?_, fun _ _ _ => rfl,
    rfl, rfl, rfl⟩
  intro sep d c cs h
  rw [scanL.eq_def]
  split
  all_goals simp_all +decide [eq_comm]

/-- Claim C5 (witness): the single-star translation instantiated at
separator '/', depth 0, and the pattern suffix "a". -/
theorem translate_wildcards_witness :
    scanL '/' (.root 0) ('*' :: 'a' :: [])
      = (scanL '/' (.root 0) ('a' :: [])).map (fun bw =>
          ('[' :: '^' :: (escapeCharL '/' ++ (']' :: '*' :: bw.1)), bw.2)) :=
  translate_wildcards.2.2.1 '/' 0 'a' [] (by decide)

/-- Claim C6: an opening brace pushes an alternation group emitting
an opening parenthesis, a comma inside a brace group emits the regex
alternation bar, and a closing brace pops the group emitting a closing
parenthesis; alternatives may be empty and groups nest, giving
translate of "/a{b,c}" = "^/a(b|c)(/|$)" and the nested empty
alternative example its expected regex. -/
theorem translate_brace_alternation :
    (∀ (sep : Char) (d : Nat) (cs : List Char),
      scanL sep (.root d) ('\x7b' :: cs)
        = (scanL sep (.root (d + 1)) cs).map fun bw => ('(' :: bw.1, bw.2)) ∧
    (∀ (sep : Char) (d : Nat) (cs : List Char),
      scanL sep (.root (d + 1)) (',' :: cs)
        = (scanL sep (.root (d + 1)) cs).map fun bw => ('|' :: bw.1, bw.2)) ∧
    (∀ (sep : Char) (d : Nat) (cs : List Char),
      scanL sep (.root (d + 1)) ('\x7d' :: cs)
        = (scanL sep (.root d) cs).map fun bw => (')' :: bw.1, bw.2)) ∧
    translate "/a\x7bb,c\x7d" '/' = .ok ("^/a(b|c)(/|$)", []) ∧
    translate "a\x7b,.\x7btxt,py[!od]\x7d\x7d" '/'
      = .ok ("/a(|\\.(txt|py[^od]))(/|$)", []) :=
  ⟨fun _ _ _ => rfl, fun _ _ _ => rfl, fun _ _ _ => rfl, rfl, rfl⟩

/-- Claim C7: inside a bracket expression an exclamation mark in the
first position emits the negation caret; a closing square bracket
appearing as the first member (right after the opener or after the
negation mark) is emitted as an escaped literal member; any other
closing square bracket closes the set; with the three concrete
translations from the claim. -/
theorem translate_bracket_sets :
    (∀ (sep : Char) (d : Nat) (cs : List Char),
      scanL sep (.root d) ('[' :: cs)
        = scanL sep (.bracket d true true [] false) cs) ∧
    (∀ (sep : Char) (d : Nat) (ok1 : Bool) (buf : List Char) (dg : Bool)
      (cs : List Char),
      scanL sep (.bracket d true ok1 buf dg) ('!' :: cs)
        = scanL sep (.bracket d false true (buf ++ ['^']) dg) cs) ∧
    (∀ (sep : Char) (d : Nat) (neg : Bool) (buf : List Char) (dg : Bool)
      (cs : List Char),
      scanL sep (.bracket d neg true buf dg) (']' :: cs)
        = scanL sep (.bracket d false false (buf ++ ['\\', ']']) dg) cs) ∧
    (∀ (sep : Char) (d : Nat) (neg : Bool) (buf : List Char) (dg : Bool)
      (cs : List Char),
      scanL sep (.bracket d neg false buf dg) (']' :: cs)
        = (scanL sep (.root d) cs).map fun bw =>
            ((if dg then ['.'] else '[' :: (buf ++ [']'])) ++ bw.1, bw.2)) ∧
    translate "/a[a,b]" '/' = .ok ("^/a[a,b](/|$)", []) ∧
    translate "/a[!b]" '/' = .ok ("^/a[^b](/|$)", []) ∧
    translate "/a[]]" '/' = .ok ("^/a[\\]](/|$)", []) :=
  ⟨fun _ _ _ => rfl, fun _ _ _ _ _ _ => rfl, fun _ _ _ _ _ _ => rfl,
    fun _ _ _ _ _ _ => rfl, rfl, rfl, rfl⟩

/-- Claim C8: a backslash followed by any character emits that character
as a literal, regex-escaped when it is a metacharacter, so translate of
a backslash-escaped asterisk yields a literal escaped asterisk; and a
NUL character in the pattern is emitted as the six-character Unicode
escape sequence for the null code point rather than a raw byte. -/
theorem translate_escape_handling :
    (∀ (sep : Char) (d : Nat) (c : Char) (cs : List Char),
      scanL sep (.root d) ('\\' :: c :: cs)
        = (scanL sep (.root d) cs).map fun bw =>
            (escapeCharL c ++ bw.1, bw.2)) ∧
    (∀ (c : Char), c ∈ reMetachars → escapeCharL c = ['\\', c]) ∧
    escapeCharL '\x00' = ['\\', 'u', '0', '0', '0', '0'] ∧
    (∀ (sep : Char) (d : Nat) (cs : List Char),
      scanL sep (.root d) ('\x00' :: cs)
        = (scanL sep (.root d) cs).map fun bw =>
            ('\\' :: 'u' :: '0' :: '0' :: '0' :: '0' :: bw.1, bw.2)) ∧
    translate "/a\\*" '/' = .ok ("^/a\\*(/|$)", []) ∧
    translate "/a\x00" '/' = .ok ("^/a\\u0000(/|$)", []) := by
  refine ⟨fun _ _ _ _ => rfl, ?_, rfl, fun _ _ _ => rfl, rfl, rfl⟩
  intro c h
  fin_cases h <;> rfl

/-- Claim C8 (witness): the escape translation instantiated at the
metacharacter '*'. -/
theorem translate_escape_handling_witness :
    escapeCharL '*' = ['\\', '*'] :=
  translate_escape_handling.2.1 '*' (by decide)

/-- Claim C10: for every separator argument, the character '/' in the
pattern — not occurrences of the separator itself — is the separator
token: each '/' is emitted as the regex-escaped separator, a leading '/'
triggers the caret start anchor, and the boundary suffix uses the
escaped separator; in particular translate of "/a" with separator
backslash is the regex source "^\\a(\\|$)" although the pattern contains
no backslash. -/
theorem translate_slash_token_anchoring :
    (∀ sep : Char, translate "/a" sep
      = .ok (String.mk (['^'] ++ (escapeCharL sep ++ ['a'])
          ++ boundaryGroup sep), [])) ∧
    (∀ sep : Char, translate "a/b" sep
      = .ok (String.mk ((escapeCharL sep
          ++ (['a'] ++ (escapeCharL sep ++ ['b'])))
          ++ boundaryGroup sep), [])) ∧
    translate "/a" '\\' = .ok ("^\\\\a(\\\\|$)", []) :=
  ⟨fun _ => rfl, fun _ => rfl, rfl⟩

/-- Claim C4: with separator backslash instead of slash, the separator
is escaped as a literal backslash consistently in every anchor, prefix,
and suffix position, over the whole wildcard/bracket translation suite;
in particular translate of "/a*" is the regex source "^\\a[^\\]*(\\|$)"
whose compiled form escapes the separator as a literal backslash. -/
theorem translate_backslash_separator :
    translate "/a" '\\' = .ok ("^\\\\a(\\\\|$)", []) ∧
    translate "a" '\\' = .ok ("\\\\a(\\\\|$)", []) ∧
    translate "/a*" '\\' = .ok ("^\\\\a[^\\\\]*(\\\\|$)", []) ∧
    translate "/a**" '\\' = .ok ("^\\\\a.*(\\\\|$)", []) ∧
    translate "a?" '\\' = .ok ("\\\\a[^\\\\](\\\\|$)", []) ∧
    translate "/a\x7bb,c\x7d" '\\' = .ok ("^\\\\a(b|c)(\\\\|$)", []) ∧
    translate "/a[a,b]" '\\' = .ok ("^\\\\a[a,b](\\\\|$)", []) ∧
    translate "/a[!b]" '\\' = .ok ("^\\\\a[^b](\\\\|$)", []) ∧
    translate "/a[!/]" '\\' = .ok ("^\\\\a[^\\\\](\\\\|$)", []) ∧
    translate "/a[]]" '\\' = .ok ("^\\\\a[\\]](\\\\|$)", []) ∧
    translate "/a\\*" '\\' = .ok ("^\\\\a\\*(\\\\|$)", []) :=
  ⟨rfl, rfl, rfl, rfl, rfl, rfl, rfl, rfl, rfl, rfl, rfl⟩

/-- Claim C2: a collating symbol, an equivalence class, or an unknown
POSIX class name inside a bracket expression does not make translation
fail: each such construct degrades the bracket expression to the
single-character wildcard and emits exactly one diagnostic warning
carrying the offending sub-pattern — stated as the one-warning scanner
step for each construct kind, plus the four concrete translations from
the claim with their singleton warning lists. -/
theorem translate_graceful_degradation :
    (∀ (sep : Char) (d : Nat) (buf : List Char) (dg : Bool)
      (acc cs : List Char),
      scanL sep (.posix '.' d buf dg true acc) (']' :: cs)
        = (scanL sep (.bracket d false false buf true) cs).map
            fun bw => (bw.1, warnMsg '.' acc :: bw.2)) ∧
    (∀ (sep : Char) (d : Nat) (buf : List Char) (dg : Bool)
      (acc cs : List Char),
      scanL sep (.posix '=' d buf dg true acc) (']' :: cs)
        = (scanL sep (.bracket d false false buf true) cs).map
            fun bw => (bw.1, warnMsg '=' acc :: bw.2)) ∧
    (∀ (sep : Char) (d : Nat) (buf : List Char) (dg : Bool)
      (acc cs : List Char),
      posixClasses.lookup (String.mk acc) = none →
      scanL sep (.posix ':' d buf dg true acc) (']' :: cs)
        = (scanL sep (.bracket d false false buf true) cs).map
            fun bw => (bw.1, warnMsg ':' acc :: bw.2)) ∧
    translate "[[.a-acute.]]a" '/'
      = .ok ("/.a(/|$)", ["unsupported expression: [.a-acute.]"]) ∧
    translate "/[[=a=]]a" '/'
      = .ok ("^/.a(/|$)", ["unsupported expression: [=a=]"]) ∧
    translate "/[[=a=]\\d]a" '/'
      = .ok ("^/.a(/|$)", ["unsupported expression: [=a=]"]) ∧
    translate "[[:non-existent-class:]]a" '/'
      = .ok ("/.a(/|$)",
          ["unsupported expression: [:non-existent-class:]"]) := by
  refine ⟨fun _ _ _ _ _ _ => rfl, fun _ _ _ _ _ _ => rfl, ?_,
    rfl, rfl, rfl, rfl⟩
  intro sep d buf dg acc cs h
  rw [scanL.eq_def]
  simp [h]

/-- Claim C2 (witness): the unknown-class one-warning step instantiated
at the unrecognized class name "q". -/
theorem translate_graceful_degradation_witness :
    scanL '/' (.posix ':' 0 [] false true ['q']) (']' :: [])
      = (scanL '/' (.bracket 0 false false [] true) []).map
          (fun bw => (bw.1, warnMsg ':' ['q'] :: bw.2)) :=
  translate_graceful_degradation.2.2.1 '/' 0 [] false ['q'] [] (by decide)

end Browsepy
